import Mathlib

/-!
Shallow embedding of the `libmutex` repository (Rust) for checking its
natural-language specification.

Embedded source files:
* `src/libmutex/src/xlock.rs` — the `ReadBiased` moderator (`impl Spec for
  ReadBiased`), the `XLock` acquisition methods and the guard types
  `LockReadGuard` / `LockWriteGuard` with their `drop` / `upgrade` /
  `try_upgrade` / `downgrade` transitions.
* `src/libmutex/src/spinlock.rs` — `SpinLock`.
* `src/src/urw_lock.rs` — the `UrwLock` prototype with its `unpack` / `pack`
  poison plumbing.
* `Completable` (its implementation file is absent from the sample; modelled
  from the spec where needed) and `utils::remedy` / `deadline::Deadline`
  (likewise absent; modelled from the spec where needed).

Modelling of the condvar loops: each moderator operation in the Rust source
holds the state mutex for its whole body, releasing it only inside
`utils::cond_wait_remedy`.  A call is therefore an atomic check-and-mutate,
interleaved with waits.  We model the outcome of each successive wait by a
*schedule*: a list whose entries are either `timeout` (the deadline elapsed;
the code returns `false` at once, mutating nothing) or `wake s` (the thread
woke up, re-acquired the mutex, and observed state `s`, as left by other
threads).  An exhausted schedule behaves as an elapsed deadline, so the empty
schedule models a call with `Duration::ZERO` (the first wait times out
immediately) as well as any call whose deadline passes before the guarded
condition is ever satisfied.  Machine integers: `readers` is a Rust `u32`;
release builds wrap on overflow, so increments and decrements are taken
modulo `2 ^ 32`.
-/

set_option maxRecDepth 8192

namespace Libmutex

/-- Numeric bound of the Rust `u32` carrying `readers`: `2 ^ 32`. -/
def u32Mod : Nat := 4294967296

/-- The wrapping `u32` increment `readers += 1` of a release build: for an
in-range `u32` value this is exactly `(n + 1) % 2 ^ 32`, written as the case
split so that it reduces on symbolic arguments. -/
def wrapInc (n : Nat) : Nat :=
  if n + 1 = u32Mod then 0 else n + 1

/-- The wrapping `u32` decrement `readers -= 1` of a release build: for an
in-range `u32` value this is exactly `(n + (2 ^ 32 - 1)) % 2 ^ 32`
(`0 - 1` wraps to `u32::MAX`), written as the case split so that it reduces
on symbolic arguments. -/
def wrapDec (n : Nat) : Nat :=
  if n = 0 then u32Mod - 1 else n - 1

/-- The moderator state guarded by the OS mutex: `struct ReadBiasedState`
in `xlock.rs` (`readers: u32, writer: bool`). -/
structure ReadBiasedState where
  readers : Nat
  writer : Bool
deriving DecidableEq, Repr

/-- Outcome of one `utils::cond_wait_remedy` call: the wait either timed out,
or woke up holding the mutex again and observing state `s`. -/
inductive WaitOutcome where
  | timeout : WaitOutcome
  | wake (s : ReadBiasedState) : WaitOutcome
deriving DecidableEq, Repr

/-- A condition-variable notification emitted while not holding the mutex. -/
inductive Notify where
  | one : Notify
  | all : Notify
deriving DecidableEq, Repr

namespace ReadBiased

/-- `ReadBiased::new`: `readers = 0`, `writer = false`. -/
def new : ReadBiasedState := { readers := 0, writer := false }

/-- `ReadBiased::try_read`: loop `while state.writer { wait }`; on timeout
return `false` without mutating; otherwise `state.readers += 1` (wrapping)
and return `true`.  The schedule drives the successive waits. -/
def tryRead : List WaitOutcome → ReadBiasedState → Bool × ReadBiasedState
  | [], s =>
    if s.writer then (false, s)
    else (true, { s with readers := wrapInc s.readers })
  | o :: rest, s =>
    if s.writer then
      match o with
      | WaitOutcome.timeout => (false, s)
      | WaitOutcome.wake s2 => tryRead rest s2
    else (true, { s with readers := wrapInc s.readers })

/-- The notification tail of `ReadBiased::read_unlock`, run after the state
lock is dropped: `notify_all` if the new count is 1, `notify_one` if it is
0, no notification otherwise. -/
def readUnlockNotify (readers : Nat) : Option Notify :=
  if readers = 1 then some Notify.all
  else if readers = 0 then some Notify.one
  else none

/-- `ReadBiased::read_unlock`: decrement `readers` (wrapping; the
`debug_assert!`s `readers > 0` and `!writer` vanish in release builds),
drop the state lock, then notify according to the new count. -/
def read_unlock (s : ReadBiasedState) : ReadBiasedState × Option Notify :=
  let readers := wrapDec s.readers
  ({ s with readers := readers }, readUnlockNotify readers)

/-- `ReadBiased::try_write`: loop `while state.readers != 0 || state.writer
{ wait }`; on timeout return `false` without mutating; otherwise set
`writer = true` and return `true`. -/
def tryWrite : List WaitOutcome → ReadBiasedState → Bool × ReadBiasedState
  | [], s =>
    if s.readers ≠ 0 ∨ s.writer then (false, s)
    else (true, { s with writer := true })
  | o :: rest, s =>
    if s.readers ≠ 0 ∨ s.writer then
      match o with
      | WaitOutcome.timeout => (false, s)
      | WaitOutcome.wake s2 => tryWrite rest s2
    else (true, { s with writer := true })

/-- `ReadBiased::write_unlock`: set `writer = false` (the `debug_assert!`s
vanish in release builds) and notify one. -/
def write_unlock (s : ReadBiasedState) : ReadBiasedState × Option Notify :=
  ({ s with writer := false }, some Notify.one)

/-- `ReadBiased::downgrade`: unconditionally set `readers = 1`,
`writer = false` and notify all.  The precondition `writer && readers == 0`
exists only as `debug_assert!`s, which vanish in release builds. -/
def downgrade (_s : ReadBiasedState) : ReadBiasedState × Option Notify :=
  ({ readers := 1, writer := false }, some Notify.all)

/-- `ReadBiased::try_upgrade`: loop `while state.readers != 1 { wait }`; on
timeout return `false` without mutating; otherwise set `readers = 0`,
`writer = true` and return `true`. -/
def tryUpgrade : List WaitOutcome → ReadBiasedState → Bool × ReadBiasedState
  | [], s =>
    if s.readers ≠ 1 then (false, s)
    else (true, { readers := 0, writer := true })
  | o :: rest, s =>
    if s.readers ≠ 1 then
      match o with
      | WaitOutcome.timeout => (false, s)
      | WaitOutcome.wake s2 => tryUpgrade rest s2
    else (true, { readers := 0, writer := true })

end ReadBiased

/-- `SpinLock`'s observable state: the atomic `locked` flag. -/
structure SpinState where
  locked : Bool
deriving DecidableEq, Repr

namespace SpinState

/-- `SpinLock::try_lock`: a single `compare_exchange(false, true)`; on
success a guard (modelled as `()`) is produced. -/
def tryLock (l : SpinState) : Option Unit × SpinState :=
  if l.locked = false then (some (), { locked := true })
  else (none, l)

/-- `SpinLock::unlock`: unconditionally store `false` into `locked`,
with no check that the caller holds the lock. -/
def unlock (_l : SpinState) : SpinState :=
  { locked := false }

end SpinState

/-- A call made by a guard into the moderator (`Spec`) implementation. -/
inductive SpecCall where
  | readUnlockCall : SpecCall
  | writeUnlockCall : SpecCall
  | downgradeCall : SpecCall
deriving DecidableEq, Repr

/-- `LockReadGuard`'s observable state: its `locked: bool` field. -/
structure RGuard where
  locked : Bool
deriving DecidableEq, Repr

/-- `LockWriteGuard`'s observable state: its `locked: bool` field. -/
structure WGuard where
  locked : Bool
deriving DecidableEq, Repr

/-- `XLock::try_read`: if `S::try_read` returns `true`, a read guard with
`locked: true` is produced; otherwise `None`. -/
def xTryRead (sched : List WaitOutcome) (s : ReadBiasedState) :
    Option RGuard × ReadBiasedState :=
  (if (ReadBiased.tryRead sched s).1 then some { locked := true } else none,
    (ReadBiased.tryRead sched s).2)

/-- `XLock::try_write`: if `S::try_write` returns `true`, a write guard with
`locked: true` is produced; otherwise `None`. -/
def xTryWrite (sched : List WaitOutcome) (s : ReadBiasedState) :
    Option WGuard × ReadBiasedState :=
  (if (ReadBiased.tryWrite sched s).1 then some { locked := true } else none,
    (ReadBiased.tryWrite sched s).2)

/-- `XLock::try_upgrade`: if `S::try_upgrade` returns `true`, a write guard
with `locked: true` is produced; otherwise `None`. -/
def xTryUpgrade (sched : List WaitOutcome) (s : ReadBiasedState) :
    Option WGuard × ReadBiasedState :=
  (if (ReadBiased.tryUpgrade sched s).1 then some { locked := true } else none,
    (ReadBiased.tryUpgrade sched s).2)

/-- `XLock::downgrade`: call `S::downgrade`, then unconditionally build a
fresh read guard with `locked: true`. -/
def xDowngrade (s : ReadBiasedState) :
    RGuard × ReadBiasedState × Option Notify :=
  ({ locked := true }, (ReadBiased.downgrade s).1, (ReadBiased.downgrade s).2)

/-- `Drop for LockReadGuard`: call `read_unlock` if and only if `locked` is
still set. -/
def RGuard.dropCall (g : RGuard) : Option SpecCall :=
  if g.locked then some SpecCall.readUnlockCall else none

/-- `Drop for LockWriteGuard`: call `write_unlock` if and only if `locked`
is still set. -/
def WGuard.dropCall (g : WGuard) : Option SpecCall :=
  if g.locked then some SpecCall.writeUnlockCall else none

/-- Result of `LockReadGuard::try_upgrade`.  In the `upgraded` branch the
consumed read guard (dropped inside the method with its flag cleared) is
carried alongside the new write guard; `unchanged` carries back the original
guard untouched. -/
inductive UpgradeOutcome where
  | upgraded (w : WGuard) (consumed : RGuard) : UpgradeOutcome
  | unchanged (g : RGuard) : UpgradeOutcome
deriving DecidableEq, Repr

/-- `LockReadGuard::try_upgrade`: on `None` from the lock, return
`Unchanged(self)` with `self` untouched; on `Some(guard)` clear
`self.locked` and return `Upgraded(guard)`. -/
def RGuard.tryUpgradeG (g : RGuard) (sched : List WaitOutcome)
    (s : ReadBiasedState) : UpgradeOutcome × ReadBiasedState :=
  (match (xTryUpgrade sched s).1 with
    | none => UpgradeOutcome.unchanged g
    | some w => UpgradeOutcome.upgraded w { g with locked := false },
    (xTryUpgrade sched s).2)

/-- `LockReadGuard::upgrade`: set `self.locked = false`, then
`self.lock.upgrade()` (which is `try_upgrade(Duration::MAX).unwrap()`); the
middle component is the consumed guard as it is dropped. -/
def RGuard.upgradeG (g : RGuard) (sched : List WaitOutcome)
    (s : ReadBiasedState) : Option WGuard × RGuard × ReadBiasedState :=
  ((xTryUpgrade sched s).1, { g with locked := false },
    (xTryUpgrade sched s).2)

/-- `LockWriteGuard::downgrade`: set `self.locked = false`, then
`self.lock.downgrade()`.  Components: the fresh read guard, the consumed
write guard as it is dropped, the new moderator state, the notification, and
the list of moderator calls the method makes. -/
def WGuard.downgradeG (g : WGuard) (s : ReadBiasedState) :
    RGuard × WGuard × ReadBiasedState × Option Notify × List SpecCall :=
  ((xDowngrade s).1, { g with locked := false }, (xDowngrade s).2.1,
    (xDowngrade s).2.2, [SpecCall.downgradeCall])

/-- `LockResult` from `std::sync`: `Err` is a `PoisonError` that still
carries the inner value (retrievable through `into_inner`). -/
inductive LockResult (α : Type) where
  | ok (a : α) : LockResult α
  | err (a : α) : LockResult α
deriving DecidableEq, Repr

/-- `unpack` in `urw_lock.rs`: split a `LockResult` into the inner value and
a poison flag. -/
def unpack {α : Type} : LockResult α → α × Bool
  | LockResult.ok a => (a, false)
  | LockResult.err a => (a, true)

/-- `pack` in `urw_lock.rs`: rebuild a `LockResult` from a value and a
poison flag; a set flag produces `Err(PoisonError::new(data))`. -/
def pack {α : Type} (a : α) (poisoned : Bool) : LockResult α :=
  if poisoned then LockResult.err a else LockResult.ok a

/-- Model of `Mutex::lock` / `RwLock::read` results: the lock's poison flag
decides whether the caller sees `Ok` or `Err`, with the protected value
inside either way. -/
def osLock {α : Type} (poisoned : Bool) (a : α) : LockResult α :=
  pack a poisoned

/-- Modelled from the spec: `utils::remedy` (the `utils` module is absent
from the source sample).  Spec §7: the library "transparently unwraps
poisoned results and continues", so both `Ok` and `Err` yield the inner
value. -/
def remedy {α : Type} : LockResult α → α
  | LockResult.ok a => a
  | LockResult.err a => a

/-- `ReadBiased::try_read` including the `utils::remedy(sync.state.lock())`
entry step: the state-mutex poison flag is absorbed by `remedy` before the
wait loop runs. -/
def tryReadP (poisoned : Bool) (sched : List WaitOutcome)
    (s : ReadBiasedState) : Bool × ReadBiasedState :=
  ReadBiased.tryRead sched (remedy (osLock poisoned s))

/-- `ReadBiased::try_write` including the `utils::remedy` entry step. -/
def tryWriteP (poisoned : Bool) (sched : List WaitOutcome)
    (s : ReadBiasedState) : Bool × ReadBiasedState :=
  ReadBiased.tryWrite sched (remedy (osLock poisoned s))

/-- `UrwLock::read` in `urw_lock.rs`: wait (untimed) while `writer`;
increment `readers`; take the data `RwLock`'s read result apart with
`unpack` and re-`pack` its poison flag around the returned guard (modelled
as `()`).  The schedule lists the states observed at successive wakeups;
`none` models a call that never returns within the schedule. -/
def urwRead (dataPoisoned : Bool) :
    List ReadBiasedState → ReadBiasedState →
    Option (LockResult Unit × ReadBiasedState)
  | [], s =>
    if s.writer then none
    else
      let (g, poisoned) := unpack (osLock dataPoisoned ())
      some (pack g poisoned, { s with readers := wrapInc s.readers })
  | s2 :: rest, s =>
    if s.writer then urwRead dataPoisoned rest s2
    else
      let (g, poisoned) := unpack (osLock dataPoisoned ())
      some (pack g poisoned, { s with readers := wrapInc s.readers })

/-- Modelled from the spec: `Completable::complete` (the `completable`
implementation file is absent from the sample; only its commented-out tests
are present).  Spec §4.5: "if empty, fills and wakes all waiters, returns
`true`.  If already filled, discards the supplied value and returns
`false`."  Components: the returned boolean, the cell afterwards, and
whether all waiters were woken. -/
def complete {α : Type} : Option α → α → Bool × Option α × Bool
  | none, v => (true, some v, true)
  | some w, _ => (false, some w, false)

/-- A sequence of `complete` calls against one `Completable` instance:
returns the list of results and the final cell contents. -/
def completeSeq {α : Type} : Option α → List α → List Bool × Option α
  | st, [] => ([], st)
  | st, v :: vs =>
    match complete st v with
    | (b, st2, _) =>
      match completeSeq st2 vs with
      | (bs, stf) => (b :: bs, stf)

/-- The reader/writer exclusion predicate of the spec:
`readers == 0 ∨ writer == false`. -/
def rwInv (s : ReadBiasedState) : Prop :=
  s.readers = 0 ∨ s.writer = false

instance (s : ReadBiasedState) : Decidable (rwInv s) := by
  unfold rwInv
  infer_instance

/-- Every state delivered by a wakeup in the schedule satisfies `P`:
other threads, which mutate the moderator state between our observations,
keep `P` intact. -/
def SchedSat (P : ReadBiasedState → Prop) (sched : List WaitOutcome) : Prop :=
  ∀ s, WaitOutcome.wake s ∈ sched → P s

theorem schedSat_head {P : ReadBiasedState → Prop} {s : ReadBiasedState}
    {rest : List WaitOutcome} (h : SchedSat P (WaitOutcome.wake s :: rest)) :
    P s :=
  h s (List.mem_cons_self _ _)

theorem schedSat_tail {P : ReadBiasedState → Prop} {o : WaitOutcome}
    {rest : List WaitOutcome} (h : SchedSat P (o :: rest)) :
    SchedSat P rest :=
  fun s hs => h s (List.mem_cons_of_mem _ hs)

theorem schedSat_nil {P : ReadBiasedState → Prop} : SchedSat P [] := by
  intro s hs
  cases hs

theorem tryRead_rwInv : ∀ (sched : List WaitOutcome) (s : ReadBiasedState),
    rwInv s → SchedSat rwInv sched →
    rwInv (ReadBiased.tryRead sched s).2 := by
  intro sched
  induction sched with
  | nil =>
    intro s hs _
    unfold ReadBiased.tryRead
    by_cases hw : s.writer = true
    · simpa [hw] using hs
    · simp only [Bool.not_eq_true] at hw
      simp [hw, rwInv]
  | cons o rest ih =>
    intro s hs hsched
    unfold ReadBiased.tryRead
    by_cases hw : s.writer = true
    · cases o with
      | timeout => simpa [hw] using hs
      | wake s2 =>
        simpa [hw] using ih s2 (schedSat_head hsched) (schedSat_tail hsched)
    · simp only [Bool.not_eq_true] at hw
      simp [hw, rwInv]

theorem tryWrite_rwInv : ∀ (sched : List WaitOutcome) (s : ReadBiasedState),
    rwInv s → SchedSat rwInv sched →
    rwInv (ReadBiased.tryWrite sched s).2 := by
  intro sched
  induction sched with
  | nil =>
    intro s hs _
    unfold ReadBiased.tryWrite
    by_cases hc : s.readers ≠ 0 ∨ s.writer = true
    · simpa [hc] using hs
    · push_neg at hc
      simp [hc, rwInv, hc.1]
  | cons o rest ih =>
    intro s hs hsched
    unfold ReadBiased.tryWrite
    by_cases hc : s.readers ≠ 0 ∨ s.writer = true
    · cases o with
      | timeout => simpa [hc] using hs
      | wake s2 =>
        simpa [hc] using ih s2 (schedSat_head hsched) (schedSat_tail hsched)
    · push_neg at hc
      simp [hc, rwInv, hc.1]

theorem tryUpgrade_rwInv : ∀ (sched : List WaitOutcome) (s : ReadBiasedState),
    rwInv s → SchedSat rwInv sched →
    rwInv (ReadBiased.tryUpgrade sched s).2 := by
  intro sched
  induction sched with
  | nil =>
    intro s hs _
    unfold ReadBiased.tryUpgrade
    by_cases hc : s.readers ≠ 1
    · simpa [hc] using hs
    · simp [hc, rwInv]
  | cons o rest ih =>
    intro s hs hsched
    unfold ReadBiased.tryUpgrade
    by_cases hc : s.readers ≠ 1
    · cases o with
      | timeout => simpa [hc] using hs
      | wake s2 =>
        simpa [hc] using ih s2 (schedSat_head hsched) (schedSat_tail hsched)
    · simp [hc, rwInv]

theorem tryRead_timeout_quiet : ∀ (sched : List WaitOutcome)
    (s : ReadBiasedState), SchedSat (fun s2 => s2 = s) sched →
    (ReadBiased.tryRead sched s).1 = false →
    ReadBiased.tryRead sched s = (false, s) := by
  intro sched
  induction sched with
  | nil =>
    intro s _ hto
    unfold ReadBiased.tryRead at hto ⊢
    by_cases hw : s.writer = true
    · simp [hw]
    · simp [hw] at hto
  | cons o rest ih =>
    intro s hsched hto
    unfold ReadBiased.tryRead at hto ⊢
    by_cases hw : s.writer = true
    · cases o with
      | timeout => simp [hw]
      | wake s2 =>
        have h2 : s2 = s := hsched s2 (List.mem_cons_self _ _)
        subst h2
        simp only [hw, if_true] at hto ⊢
        exact ih s2 (schedSat_tail hsched) hto
    · simp [hw] at hto

theorem tryWrite_timeout_quiet : ∀ (sched : List WaitOutcome)
    (s : ReadBiasedState), SchedSat (fun s2 => s2 = s) sched →
    (ReadBiased.tryWrite sched s).1 = false →
    ReadBiased.tryWrite sched s = (false, s) := by
  intro sched
  induction sched with
  | nil =>
    intro s _ hto
    unfold ReadBiased.tryWrite at hto ⊢
    by_cases hc : s.readers ≠ 0 ∨ s.writer = true
    · simp [hc]
    · simp [hc] at hto
  | cons o rest ih =>
    intro s hsched hto
    unfold ReadBiased.tryWrite at hto ⊢
    by_cases hc : s.readers ≠ 0 ∨ s.writer = true
    · cases o with
      | timeout => simp [hc]
      | wake s2 =>
        have h2 : s2 = s := hsched s2 (List.mem_cons_self _ _)
        subst h2
        simp only [hc, if_true] at hto ⊢
        exact ih s2 (schedSat_tail hsched) hto
    · simp [hc] at hto

/-- The state an upgrader can observe while it waits: `readers > 0` (its own
readership is still counted) and no writer; these are the conditions the
code re-asserts after every wakeup in `try_upgrade`. -/
def upgPre (s : ReadBiasedState) : Prop :=
  0 < s.readers ∧ s.writer = false

theorem tryUpgrade_timeout_pre : ∀ (sched : List WaitOutcome)
    (s : ReadBiasedState), upgPre s → SchedSat upgPre sched →
    (ReadBiased.tryUpgrade sched s).1 = false →
    upgPre (ReadBiased.tryUpgrade sched s).2 := by
  intro sched
  induction sched with
  | nil =>
    intro s hs _ hto
    unfold ReadBiased.tryUpgrade at hto ⊢
    by_cases hc : s.readers ≠ 1
    · simpa [hc] using hs
    · simp [hc] at hto
  | cons o rest ih =>
    intro s hs hsched hto
    unfold ReadBiased.tryUpgrade at hto ⊢
    by_cases hc : s.readers ≠ 1
    · cases o with
      | timeout => simpa [hc] using hs
      | wake s2 =>
        simp [hc] at hto ⊢
        exact ih s2 (schedSat_head hsched) (schedSat_tail hsched) hto
    · simp [hc] at hto

theorem completeSeq_filled {α : Type} : ∀ (vs : List α) (w : α),
    completeSeq (some w) vs = (List.replicate vs.length false, some w) := by
  intro vs
  induction vs with
  | nil => intro w; rfl
  | cons v rest ih =>
    intro w
    simp [completeSeq, complete, ih w, List.replicate]

theorem read_unlock_writer (s : ReadBiasedState) :
    (ReadBiased.read_unlock s).1.writer = s.writer := by
  simp [ReadBiased.read_unlock]

theorem read_unlock_eq (s : ReadBiasedState) :
    ReadBiased.read_unlock s =
      ({ s with readers := wrapDec s.readers },
        ReadBiased.readUnlockNotify (wrapDec s.readers)) := by
  simp [ReadBiased.read_unlock]

theorem wrapDec_eq_sub_one (n : Nat) (h1 : 0 < n) :
    wrapDec n = n - 1 := by
  unfold wrapDec
  rw [if_neg (Nat.pos_iff_ne_zero.mp h1)]

/-- Claim C1: for an XLock using the ReadBiased moderator, every operation
(`try_read`, `read_unlock`, `try_write`, `write_unlock`, `downgrade`,
`try_upgrade`), invoked with its documented precondition from a state
satisfying `readers == 0 ∨ writer == false`, against any schedule whose
wakeups deliver states also satisfying it, leaves a state satisfying it. -/
theorem claim_c1_rw_exclusion_preserved (sched : List WaitOutcome)
    (s : ReadBiasedState) (hs : rwInv s) (hsched : SchedSat rwInv sched) :
    rwInv (ReadBiased.tryRead sched s).2 ∧
    (0 < s.readers → s.writer = false → rwInv (ReadBiased.read_unlock s).1) ∧
    rwInv (ReadBiased.tryWrite sched s).2 ∧
    (s.readers = 0 → s.writer = true → rwInv (ReadBiased.write_unlock s).1) ∧
    (s.readers = 0 → s.writer = true → rwInv (ReadBiased.downgrade s).1) ∧
    (0 < s.readers → s.writer = false →
      rwInv (ReadBiased.tryUpgrade sched s).2) := by
  refine ⟨tryRead_rwInv sched s hs hsched, ?_,
    tryWrite_rwInv sched s hs hsched, ?_, ?_, ?_⟩
  · intro _ hw
    right
    rw [read_unlock_writer]
    exact hw
  · intro _ _
    right
    rfl
  · intro _ _
    right
    rfl
  · intro _ _
    exact tryUpgrade_rwInv sched s hs hsched

theorem claim_c1_rw_exclusion_preserved_wit :
    rwInv (ReadBiased.tryRead [] { readers := 0, writer := false }).2 ∧
    rwInv (ReadBiased.read_unlock { readers := 1, writer := false }).1 := by
  constructor
  · exact (claim_c1_rw_exclusion_preserved [] { readers := 0, writer := false }
      (Or.inl rfl) schedSat_nil).1
  · exact (claim_c1_rw_exclusion_preserved []
      { readers := 1, writer := false } (Or.inr rfl) schedSat_nil).2.1
      (by decide) rfl

/-- Claim C2: a successfully acquired guard releases exactly once.
`LockReadGuard`'s drop calls `read_unlock` iff its `locked` flag is set;
`upgrade` and a successful `try_upgrade` clear that flag, so the consumed
read guard's drop releases nothing; a timed-out `try_upgrade` hands back the
original guard untouched.  Symmetrically for `LockWriteGuard`'s drop and
`downgrade`. -/
theorem claim_c2_guard_single_release (g : RGuard) (w : WGuard)
    (sched : List WaitOutcome) (s : ReadBiasedState) :
    (g.locked = true → RGuard.dropCall g = some SpecCall.readUnlockCall) ∧
    (g.locked = false → RGuard.dropCall g = none) ∧
    (w.locked = true → WGuard.dropCall w = some SpecCall.writeUnlockCall) ∧
    (w.locked = false → WGuard.dropCall w = none) ∧
    ((RGuard.upgradeG g sched s).2.1.locked = false ∧
      RGuard.dropCall (RGuard.upgradeG g sched s).2.1 = none) ∧
    (∀ w2 c s2,
      RGuard.tryUpgradeG g sched s = (UpgradeOutcome.upgraded w2 c, s2) →
      c.locked = false ∧ RGuard.dropCall c = none) ∧
    (∀ g2 s2,
      RGuard.tryUpgradeG g sched s = (UpgradeOutcome.unchanged g2, s2) →
      g2 = g) ∧
    ((WGuard.downgradeG w s).2.1.locked = false ∧
      WGuard.dropCall (WGuard.downgradeG w s).2.1 = none) := by
  refine ⟨?_, ?_, ?_, ?_, ⟨rfl, rfl⟩, ?_, ?_, ⟨rfl, rfl⟩⟩
  · intro h
    simp [RGuard.dropCall, h]
  · intro h
    simp [RGuard.dropCall, h]
  · intro h
    simp [WGuard.dropCall, h]
  · intro h
    simp [WGuard.dropCall, h]
  · intro w2 c s2 h
    unfold RGuard.tryUpgradeG at h
    cases hx : (xTryUpgrade sched s).1 with
    | none =>
      rw [hx] at h
      cases h
    | some w3 =>
      rw [hx] at h
      have hc : c = { locked := false } := by
        have := congrArg Prod.fst h
        simp at this
        exact this.2.symm
      subst hc
      exact ⟨rfl, rfl⟩
  · intro g2 s2 h
    unfold RGuard.tryUpgradeG at h
    cases hx : (xTryUpgrade sched s).1 with
    | none =>
      rw [hx] at h
      have := congrArg Prod.fst h
      simp at this
      exact this.symm
    | some w3 =>
      rw [hx] at h
      cases congrArg Prod.fst h

theorem claim_c2_guard_single_release_wit :
    RGuard.dropCall { locked := true } = some SpecCall.readUnlockCall ∧
    WGuard.dropCall { locked := false } = none := by
  constructor
  · exact (claim_c2_guard_single_release { locked := true } { locked := false }
      [] { readers := 0, writer := false }).1 rfl
  · exact (claim_c2_guard_single_release { locked := true } { locked := false }
      [] { readers := 0, writer := false }).2.2.2.1 rfl

/-- Claim C3: from a state with `writer && readers == 0`, the ReadBiased
`downgrade` sets `readers = 1`, `writer = false` and notifies all, and
`LockWriteGuard::downgrade` always succeeds — it returns a locked read
guard, makes only the `downgrade` moderator call (never `write_unlock`), and
the consumed write guard's drop releases nothing. -/
theorem claim_c3_downgrade_atomic (s : ReadBiasedState) (g : WGuard)
    (hw : s.writer = true) (hr : s.readers = 0) :
    ReadBiased.downgrade s =
      ({ readers := 1, writer := false }, some Notify.all) ∧
    WGuard.downgradeG g s =
      ({ locked := true }, { locked := false },
        { readers := 1, writer := false }, some Notify.all,
        [SpecCall.downgradeCall]) ∧
    SpecCall.writeUnlockCall ∉ (WGuard.downgradeG g s).2.2.2.2 ∧
    WGuard.dropCall (WGuard.downgradeG g s).2.1 = none := by
  refine ⟨rfl, rfl, ?_, rfl⟩
  intro hmem
  simp [WGuard.downgradeG] at hmem

theorem claim_c3_downgrade_atomic_wit :
    ReadBiased.downgrade { readers := 0, writer := true } =
      ({ readers := 1, writer := false }, some Notify.all) :=
  (claim_c3_downgrade_atomic { readers := 0, writer := true }
    { locked := true } rfl rfl).1

/-- Claim C4: a `try_upgrade` that does not complete before the deadline
returns `Unchanged` carrying the original read guard (its `locked` flag is
whatever it was, in particular still set for a live guard), and the
moderator still counts the caller among its readers with no writer; in
particular `try_upgrade(0)` with `readers > 1` (the empty schedule) returns
`Unchanged` with the state exactly as it was. -/
theorem claim_c4_tryUpgrade_timeout_unchanged (g : RGuard)
    (sched : List WaitOutcome) (s : ReadBiasedState) (hr : 0 < s.readers)
    (hw : s.writer = false) (hsched : SchedSat upgPre sched) :
    ((ReadBiased.tryUpgrade sched s).1 = false →
      RGuard.tryUpgradeG g sched s =
        (UpgradeOutcome.unchanged g, (ReadBiased.tryUpgrade sched s).2) ∧
      0 < (ReadBiased.tryUpgrade sched s).2.readers ∧
      (ReadBiased.tryUpgrade sched s).2.writer = false) ∧
    (1 < s.readers →
      RGuard.tryUpgradeG g [] s = (UpgradeOutcome.unchanged g, s)) := by
  constructor
  · intro hto
    have hpre := tryUpgrade_timeout_pre sched s ⟨hr, hw⟩ hsched hto
    refine ⟨?_, hpre.1, hpre.2⟩
    unfold RGuard.tryUpgradeG xTryUpgrade
    rw [hto]
    simp
  · intro h1
    have hne : ({ readers := s.readers, writer := s.writer } :
        ReadBiasedState).readers ≠ 1 := by
      simpa using Nat.ne_of_gt h1
    unfold RGuard.tryUpgradeG xTryUpgrade ReadBiased.tryUpgrade
    simp [Nat.ne_of_gt h1]

theorem claim_c4_tryUpgrade_timeout_unchanged_wit :
    RGuard.tryUpgradeG { locked := true } [] { readers := 2, writer := false } =
      (UpgradeOutcome.unchanged { locked := true },
        { readers := 2, writer := false }) :=
  (claim_c4_tryUpgrade_timeout_unchanged { locked := true } []
    { readers := 2, writer := false } (by decide) rfl schedSat_nil).2
    (by decide)

/-- Claim C5: a timed-out `XLock::try_read` or `XLock::try_write` on a
ReadBiased lock returns `None` — an absent value, not an error — and, when
no other thread mutates the state during the call (every wakeup observes the
entry state), leaves `readers` and `writer` exactly as they were. -/
theorem claim_c5_timeout_leaves_state (sched : List WaitOutcome)
    (s : ReadBiasedState) (hq : SchedSat (fun s2 => s2 = s) sched) :
    ((ReadBiased.tryRead sched s).1 = false → xTryRead sched s = (none, s)) ∧
    ((ReadBiased.tryWrite sched s).1 = false →
      xTryWrite sched s = (none, s)) := by
  constructor
  · intro hto
    have h := tryRead_timeout_quiet sched s hq hto
    unfold xTryRead
    rw [h]
    rfl
  · intro hto
    have h := tryWrite_timeout_quiet sched s hq hto
    unfold xTryWrite
    rw [h]
    rfl

theorem claim_c5_timeout_leaves_state_wit :
    xTryRead [] { readers := 0, writer := true } =
      (none, { readers := 0, writer := true }) :=
  (claim_c5_timeout_leaves_state [] { readers := 0, writer := true }
    schedSat_nil).1 rfl

/-- Claim C6: from a state with `readers > 0` and no writer (and `readers`
in `u32` range), `read_unlock` decrements `readers`; it notifies all when
the new count is 1, notifies one when the new count is 0, and notifies no
one otherwise. -/
theorem claim_c6_read_unlock_notification (s : ReadBiasedState)
    (h1 : 0 < s.readers) (h2 : s.writer = false) (h3 : s.readers < u32Mod) :
    (ReadBiased.read_unlock s).1.readers = s.readers - 1 ∧
    (ReadBiased.read_unlock s).1.writer = false ∧
    (s.readers - 1 = 1 → (ReadBiased.read_unlock s).2 = some Notify.all) ∧
    (s.readers - 1 = 0 → (ReadBiased.read_unlock s).2 = some Notify.one) ∧
    (1 < s.readers - 1 → (ReadBiased.read_unlock s).2 = none) := by
  have hr2 : wrapDec s.readers = s.readers - 1 :=
    wrapDec_eq_sub_one s.readers h1
  rw [read_unlock_eq, hr2]
  refine ⟨rfl, h2, ?_, ?_, ?_⟩
  · intro he
    rw [he]
    rfl
  · intro he
    rw [he]
    rfl
  · intro hgt
    have hne1 : s.readers - 1 ≠ 1 := by omega
    have hne0 : s.readers - 1 ≠ 0 := by omega
    simp [ReadBiased.readUnlockNotify, hne1, hne0]

theorem claim_c6_read_unlock_notification_wit :
    (ReadBiased.read_unlock { readers := 2, writer := false }).1.readers = 1 ∧
    (ReadBiased.read_unlock { readers := 2, writer := false }).2 =
      some Notify.all := by
  have h := claim_c6_read_unlock_notification { readers := 2, writer := false }
    (by decide) rfl (by decide)
  exact ⟨h.1, h.2.2.1 rfl⟩

/-- Claim C7 (counterexample): `UrwLock::read` is an acquisition of the
cited sources that, when the data lock is poisoned, returns
`Err(PoisonError(...))` — an error carrying a poison indicator — to its
caller, not a plain guard: from an idle lock with the data `RwLock`
poisoned, `read` returns the `err` variant. -/
theorem claim_c7_poison_cex :
    urwRead true [] { readers := 0, writer := false } =
      some (LockResult.err (), { readers := 1, writer := false }) := by
  rfl

/-- Claim C7 (amended): operations of `XLock` itself report no poisoning —
`utils::remedy` absorbs the state mutex's poison flag, so the outcome of
`try_read` / `try_write` is independent of it and is a plain
`Option`-shaped result; the `UrwLock` prototype, by contrast, re-packs the
data lock's poison flag into the `LockResult` it returns, so its caller
sees `err` exactly when the data lock was poisoned. -/
theorem claim_c7_poison_amended (poisoned dataPoisoned : Bool)
    (sched : List WaitOutcome) (s : ReadBiasedState)
    (hw : s.writer = false) :
    tryReadP poisoned sched s = ReadBiased.tryRead sched s ∧
    tryWriteP poisoned sched s = ReadBiased.tryWrite sched s ∧
    remedy (osLock poisoned s) = s ∧
    urwRead dataPoisoned [] s =
      some (pack () dataPoisoned,
        { s with readers := wrapInc s.readers }) ∧
    (dataPoisoned = true →
      urwRead dataPoisoned [] s =
        some (LockResult.err (),
          { s with readers := wrapInc s.readers })) := by
  have hrem : remedy (osLock poisoned s) = s := by
    cases poisoned
    · rfl
    · rfl
  refine ⟨?_, ?_, hrem, ?_, ?_⟩
  · unfold tryReadP
    rw [hrem]
  · unfold tryWriteP
    rw [hrem]
  · unfold urwRead
    rw [hw]
    cases dataPoisoned
    · rfl
    · rfl
  · intro hd
    subst hd
    unfold urwRead
    rw [hw]
    rfl

theorem claim_c7_poison_amended_wit :
    tryReadP true [] { readers := 0, writer := false } =
      ReadBiased.tryRead [] { readers := 0, writer := false } :=
  (claim_c7_poison_amended true true [] { readers := 0, writer := false }
    rfl).1

/-- Claim C8: across the lifetime of an initially empty `Completable`,
`complete` succeeds (returns `true`) for exactly the first caller, which
fills the cell with its value and wakes all waiters; every later call
returns `false`, discards its value, and leaves the stored value
unchanged. -/
theorem claim_c8_complete_once {α : Type} (v : α) (vs : List α) (w : α)
    (v2 : α) :
    completeSeq none (v :: vs) =
      (true :: List.replicate vs.length false, some v) ∧
    complete (none : Option α) v = (true, some v, true) ∧
    complete (some w) v2 = (false, some w, false) := by
  refine ⟨?_, rfl, rfl⟩
  simp [completeSeq, complete, completeSeq_filled]

/-- Claim C9: `XLock::downgrade` (a public method) enforces its
precondition only through debug assertions: in release semantics,
`ReadBiased::downgrade` from EVERY moderator state — writer active or not,
readers outstanding or not — sets `readers = 1` and `writer = false`,
notifies all, and `XLock::downgrade` hands back a fresh locked read
guard. -/
theorem claim_c9_downgrade_unconditional (s : ReadBiasedState) :
    ReadBiased.downgrade s =
      ({ readers := 1, writer := false }, some Notify.all) ∧
    xDowngrade s =
      ({ locked := true }, { readers := 1, writer := false },
        some Notify.all) :=
  ⟨rfl, rfl⟩

/-- Claim C10: `SpinLock::unlock` is unconditional — from every lock state,
including one in which another caller's guard is live (`locked = true`), it
stores `false` with no holder check, and an immediately following
`try_lock` succeeds. -/
theorem claim_c10_spin_unlock_unconditional (l : SpinState) :
    SpinState.unlock l = { locked := false } ∧
    SpinState.tryLock (SpinState.unlock l) =
      (some (), { locked := true }) :=
  ⟨rfl, rfl⟩

end Libmutex
